import Mathlib

/-!
Shallow embedding of the go-ninja connection layer (src/api/Connection.go),
covering topic matching, the per-subscription message handler, callback
adaptation, the export/announcement protocol and the in-process discovery
registry. External collaborators (the MQTT bus transport, the json codecs,
the rpc registrar, URL resolution) are modelled as parameters; repository
code that lives outside the api and schemas sources embedded here (the
topic matcher, the bus subscription object, the discovery responder) is
modelled from the spec and marked as such on each definition.
-/

namespace GoNinja

/-! ## Topic templates and matching -/

/-- Splits a character list on the slash character, accumulating the current
segment in reverse. Topics are slash-delimited per the spec. -/
def splitSlashAux : List Char → List Char → List String
  | [], acc => [String.mk acc.reverse]
  | c :: cs, acc =>
      if c = '/' then String.mk acc.reverse :: splitSlashAux cs []
      else splitSlashAux cs (c :: acc)

/-- Splits a topic string into its slash-delimited segments. -/
def splitSlash (s : String) : List String :=
  splitSlashAux s.toList []

/-- Matches template segments against concrete segments: a segment beginning
with a colon is a named placeholder capturing exactly one concrete segment,
any other segment must match byte for byte, and the segment counts must be
equal (the mismatching-length case returns none). -/
def segMatch : List String → List String → Option (List (String × String))
  | [], [] => some []
  | t :: ts, c :: cs =>
      match t.toList with
      | ':' :: name => (segMatch ts cs).map (fun m => (String.mk name, c) :: m)
      | _ => if t = c then segMatch ts cs else none
  | _, _ => none

/-- Modelled from the spec: the repository function MatchTopicPattern is not
among the sources embedded here (only its caller in Connection.go is). Per spec
section 4.1 a match requires an exact segment-count match, literal segments
match byte for byte, and each placeholder (a segment beginning with a colon)
captures exactly one path component; a mismatch yields no mapping, never an
error. -/
def MatchTopicPattern (template concrete : String) : Option (List (String × String)) :=
  segMatch (splitSlash template) (splitSlash concrete)

/-! ## The subscription message handler

The closure registered with the bus in Connection.subscribe
(src/api/Connection.go lines 107-152). Its local variable named finished is
initialised to false and never assigned, so the early-return guard at line
110 never fires; the effective cancellation mechanism is the call to
sub.Cancel() on the bus subscription. The bus package is not among the
sources embedded here, so the cancelled-subscription behaviour (a cancelled
subscription silently drops inbound messages) is modelled from the spec,
as is the serial, in-order delivery of messages to one subscription. -/

/-- An observable step taken by the handler while processing one message:
a warning logged for an undecodable payload, an invocation of the adapted
callback with the given placeholder values, or the cancellation of the bus
subscription. -/
inductive HEvent where
  | warned
  | invoked (values : List (String × String))
  | cancelEv
  deriving DecidableEq, Repr

/-- One inbound bus message: its concrete topic and the outcome of the
payload-decoding step (json envelope unwrapping for the rpc flavour, plain
json for the raw flavour; both are external codecs, so the outcome is
carried as data: none models a decode error). -/
structure Msg where
  topic : String
  decoded : Option String
  deriving DecidableEq, Repr

/-- The body of the subscription callback closure of Connection.subscribe.
When the subscription is already cancelled the message is dropped
(spec-modelled bus behaviour). Otherwise the concrete topic is matched
against the template; on a mismatch the code does not drop the message: it
builds an empty placeholder map and proceeds (Connection.go lines 114-119).
An undecodable payload is logged and dropped. Otherwise the adapter is
invoked; when it returns false, sub.Cancel() is called. Returns the new
cancelled flag and the trace of observable steps. -/
def handleMessage (templ : String) (adapter : String → List (String × String) → Bool)
    (cancelled : Bool) (m : Msg) : Bool × List HEvent :=
  if cancelled then (cancelled, [])
  else
    let values := (MatchTopicPattern templ m.topic).getD []
    match m.decoded with
    | none => (cancelled, [.warned])
    | some params =>
        if adapter params values then (cancelled, [.invoked values])
        else (true, [.invoked values, .cancelEv])

/-- Serial delivery of a list of messages to one subscription, threading the
cancelled flag and concatenating the traces. Serialization of deliveries to
a single subscription is spec-modelled (the bus package is not among the
sources embedded here). -/
def runMessages (templ : String) (adapter : String → List (String × String) → Bool) :
    Bool → List Msg → Bool × List HEvent
  | c, [] => (c, [])
  | c, m :: ms =>
      let r := handleMessage templ adapter c m
      let rest := runMessages templ adapter r.1 ms
      (rest.1, r.2 ++ rest.2)

/-! ## Callback adaptation (getAdapter and adapter.invoke)

src/api/Connection.go lines 449-538: reflective validation of the shape of
a subscriber callback, and the uniform invoke entry point. Go reflection
types are embedded as a small type grammar. -/

/-- Go types, as far as getAdapter inspects them: the json.RawMessage base
type, bool, map from string to string, pointers, functions (with their
parameter and result type lists), and everything else. -/
inductive GoType where
  | jsonRawMessage
  | boolT
  | mapStringString
  | ptr (elem : GoType)
  | func (ins : List GoType) (outs : List GoType)
  | other (name : String)

/-- Whether a type is of kind Ptr. -/
def GoType.isPtrType : GoType → Bool
  | .ptr _ => true
  | _ => false

/-- The type of dummyRawCallback (Connection.go lines 21-24): a callback of
this exact type is passed through getAdapter unadapted. -/
def dummyRawCallbackType : GoType :=
  .func [.ptr .jsonRawMessage, .mapStringString] [.boolT]

/-- Whether a type is a pointer to json.RawMessage. -/
def GoType.isRawMessagePtr : GoType → Bool
  | .ptr .jsonRawMessage => true
  | _ => false

/-- Whether a type is the map from string to string. -/
def GoType.isMapSS : GoType → Bool
  | .mapStringString => true
  | _ => false

/-- Whether a type is bool. -/
def GoType.isBool : GoType → Bool
  | .boolT => true
  | _ => false

/-- The type-identity test against the type of dummyRawCallback
(Connection.go line 485). -/
def GoType.isDummyType : GoType → Bool
  | .func [a, b] [o] => a.isRawMessagePtr && b.isMapSS && o.isBool
  | _ => false

/-- The result of a successful getAdapter call: either the raw callback
returned unchanged (the dummyRawCallback type shortcut) or an adapter value
recording the parameter count and the declared first-parameter type. -/
inductive AdapterShape where
  | rawDirect
  | reflective (argCount : Nat) (argType : Option GoType)

/-- The parameter checks of getAdapter (Connection.go lines 499-515): the
switch on the number of parameters; two parameters require the second to be
map from string to string and fall through to the first-parameter pointer
check, one parameter requires only the pointer check, zero parameters pass,
and anything else is too many parameters. -/
def checkParams : List GoType → Except String Unit
  | [a, b] =>
      match b with
      | GoType.mapStringString =>
          if !a.isPtrType then
            .error "type of first parameter must be of type Ptr"
          else .ok ()
      | _ => .error "second parameter, if specified must be of type map from string to string"
  | [a] =>
      if !a.isPtrType then
        .error "type of first parameter must be of type Ptr"
      else .ok ()
  | [] => .ok ()
  | _ => .error "callback has too many parameters"

/-- The return-type checks of getAdapter (Connection.go lines 517-524):
exactly one result, of type bool. -/
def checkOuts : List GoType → Except String Unit
  | [GoType.boolT] => .ok ()
  | [_] => .error "return type must be of type bool"
  | _ => .error "return type has the wrong number of arguments"

/-- getAdapter (Connection.go lines 479-538): the dummyRawCallback type is
returned unadapted; a non-function is rejected; then the parameter checks,
then the result checks. -/
def getAdapter (t : GoType) : Except String AdapterShape :=
  if t.isDummyType then .ok .rawDirect
  else
    match t with
    | .func ins outs =>
        match checkParams ins with
        | .error e => .error e
        | .ok _ =>
            match checkOuts outs with
            | .error e => .error e
            | .ok _ => .ok (.reflective ins.length (match ins with | a :: _ => some a | [] => none))
    | _ => .error "callback is not of kind Func"

/-- The legal callback shapes in the words of the specification: a function
of at most two parameters whose second parameter, when present, is the
placeholder map type, whose first parameter, when present, is a pointer,
and which returns exactly one bool. Stated independently of getAdapter to
be compared with it. -/
def legalCallbackShape (t : GoType) : Bool :=
  match t with
  | .func ins outs =>
      decide (ins.length ≤ 2) &&
      (match ins with
       | [_, GoType.mapStringString] => true
       | [_, _] => false
       | _ => true) &&
      (match ins with
       | GoType.ptr _ :: _ => true
       | [] => true
       | _ => false) &&
      (match outs with
       | [GoType.boolT] => true
       | _ => false)
  | _ => false

/-- The outcome of Connection.subscribe as far as registration is concerned
(Connection.go lines 96-107): when getAdapter rejects the callback,
subscribe returns the error without ever calling mqtt.Subscribe; otherwise
the bus-level subscription is created. -/
structure SubscribeOutcome where
  result : Except String Unit
  busSubscribeCalled : Bool

/-- The registration phase of Connection.subscribe. -/
def subscribeRegistration (t : GoType) : SubscribeOutcome :=
  match getAdapter t with
  | .error e => ⟨.error e, false⟩
  | .ok _ => ⟨.ok (), true⟩

/-- An observable step of adapter.invoke: the decode-failure log line, or
the call into the wrapped callback. -/
inductive IEvent where
  | decodeErrorLogged
  | callbackCalled
  deriving DecidableEq, Repr

/-- An adapter value as built by getAdapter, together with the behaviour of
its external collaborators: decode models json.Unmarshal into a fresh
instance of the declared first-parameter element type (none is an
unmarshal error), and callback models the wrapped function (receiving the
decoded value when it declares one parameter and additionally the
placeholder map when it declares two). -/
structure AdapterModel where
  argCount : Nat
  decode : String → Option String
  callback : Option String → Option (List (String × String)) → Bool

/-- adapter.invoke (Connection.go lines 458-477): with zero declared
parameters the callback is called with no arguments; otherwise the payload
is decoded into a fresh instance of the declared target type, and on an
unmarshal error the failure is logged and true is returned without calling
the callback; the placeholder map is supplied exactly when two parameters
are declared; the callback result is returned verbatim. -/
def AdapterModel.invoke (a : AdapterModel) (params : String)
    (values : List (String × String)) : Bool × List IEvent :=
  if a.argCount = 0 then (a.callback none none, [.callbackCalled])
  else
    match a.decode params with
    | none => (true, [.decodeErrorLogged])
    | some v =>
        (a.callback (some v) (if a.argCount = 2 then some values else none),
         [.callbackCalled])

/-! ## Event-emission bindings

src/api/Connection.go lines 369-382: when the exported service exposes one
of the two event-handler capabilities, exportService binds it to publish
through the exported topic. SendEvent is the external rpc collaborator. -/

/-- An observable step of an event-emission binding: the log line written
when a send fails. -/
inductive EmitEvent where
  | loggedSendFailure
  deriving DecidableEq, Repr

/-- The handler bound for the deprecated single-payload eventing capability
(Connection.go lines 370-373): the SendEvent result is returned verbatim,
and nothing is logged. -/
def eventHandlerDeprecated (sendEvent : String → String → Except String Unit)
    (event : String) (payload : String) : Except String Unit × List EmitEvent :=
  (sendEvent event payload, [])

/-- The handler bound for the variadic eventing capability (Connection.go
lines 374-381): a SendEvent failure is logged, and the error is then
returned to the emitting service. -/
def eventHandlerVariadic (sendEvent : String → String → Except String Unit)
    (event : String) (payload : String) : Except String Unit × List EmitEvent :=
  match sendEvent event payload with
  | .error e => (.error e, [.loggedSendFailure])
  | .ok _ => (.ok (), [])

/-! ## Service export and the discovery registry

src/api/Connection.go lines 300-387. A ServiceAnnouncement (the model
package is not among the sources embedded here; its fields are those Connection.go
reads and writes: Schema, Topic, SupportedMethods, SupportedEvents) holds
its two string-slice fields behind pointers, so the embedding carries an
explicit slice heap: a pointer is an index into an append-only list of
string lists, and taking the address of a fresh slice allocates a new cell.
The external collaborators of exportService are carried in an environment:
the URL resolution of resolveSchemaURI (net/url), the rpc registrar outcome
of RegisterService, and the bus outcome of the announce publish. -/

/-- A service announcement as Connection.go manipulates it: the Schema and
Topic string fields, and the two optional slice pointers (none embeds a nil
pointer). -/
structure ServiceAnnouncement where
  schema : String
  topic : String
  supportedMethods : Option Nat
  supportedEvents : Option Nat
  deriving DecidableEq, Repr

/-- The value of an announcement as serialized onto the wire: pointers
dereferenced to the slices they point at. -/
structure AnnValue where
  schema : String
  topic : String
  supportedMethods : Option (List String)
  supportedEvents : Option (List String)
  deriving DecidableEq, Repr

/-- The slice heap: reading a pointer, with the out-of-range default of an
empty slice. -/
def derefList (heap : List (List String)) (p : Nat) : List String :=
  heap.getD p []

/-- Dereferences an announcement into its wire value against a heap. -/
def derefAnn (heap : List (List String)) (a : ServiceAnnouncement) : AnnValue :=
  { schema := a.schema
    topic := a.topic
    supportedMethods := a.supportedMethods.map (derefList heap)
    supportedEvents := a.supportedEvents.map (derefList heap) }

/-- The per-connection state exportService touches: the slice heap, the
services field of Connection (the discovery registry), and the sequence of
announce events published on the bus, each carrying the wire value of the
announcement at publish time. -/
structure ConnState where
  heap : List (List String)
  services : List ServiceAnnouncement
  published : List AnnValue
  deriving DecidableEq, Repr

/-- The connection state right after Connect builds the Connection struct
(Connection.go lines 41-44): an empty services list, nothing published. -/
def emptyConn : ConnState :=
  { heap := [], services := [], published := [] }

/-- Allocates a fresh heap cell holding the given slice and returns its
pointer (models taking the address of a slice value). -/
def alloc (st : ConnState) (xs : List String) : ConnState × Nat :=
  ({ st with heap := st.heap ++ [xs] }, st.heap.length)

/-- The external collaborators of one exportService call: resolve models
resolveSchemaURI (net/url reference resolution against the schema root),
registerResult the rpc registrar outcome (the discovered method names on
success), and sendOk whether the announce publish succeeds. -/
structure ExportEnv where
  resolve : String → String
  registerResult : Except String (List String)
  sendOk : Bool

/-- The tail of exportService after the supported-methods handling
(Connection.go lines 354-387): default SupportedEvents to a fresh empty
slice when nil, set Topic, publish the announce event (a failure surfaces
as the export error, with nothing recorded), then append the announcement
to the services list. -/
def exportFinish (env : ExportEnv) (st : ConnState) (topic : String)
    (a : ServiceAnnouncement) (methods : List String) :
    Except String (List String) × ConnState :=
  let r1 :=
    match a.supportedEvents with
    | none =>
        let r := alloc st []
        ({ a with supportedEvents := some r.2 }, r.1)
    | some _ => (a, st)
  let a2 := { r1.1 with topic := topic }
  let st1 := r1.2
  if env.sendOk then
    let st2 := { st1 with published := st1.published ++ [derefAnn st1.heap a2] }
    let st3 := { st2 with services := st2.services ++ [a2] }
    (.ok methods, st3)
  else
    (.error "Failed sending service announcement", st1)

/-- exportService (Connection.go lines 335-387): resolve the schema URI on
the announcement, register the service with the rpc registrar (an error
aborts the export), adopt the discovered method set when SupportedMethods
is nil, otherwise reject the export when the declared slice is longer than
the discovered one (the count is the only thing compared), then finish with
the events defaulting, the topic assignment, the announce publish and the
registry append. The returned value on success is the discovered method
list of the exported service. -/
def exportService (env : ExportEnv) (st : ConnState) (topic : String)
    (ann : ServiceAnnouncement) : Except String (List String) × ConnState :=
  let a1 := { ann with schema := env.resolve ann.schema }
  match env.registerResult with
  | .error _ => (.error ("Failed to register service on " ++ topic), st)
  | .ok methods =>
      match a1.supportedMethods with
      | none =>
          let r := alloc st methods
          exportFinish env r.1 topic { a1 with supportedMethods := some r.2 } methods
      | some p =>
          if (derefList st.heap p).length > methods.length then
            (.error "The number of actual exported methods is less than the number said to be exported", st)
          else
            exportFinish env st topic a1 methods

/-- The struct copy made at the call sites of exportService: ExportService
and MustExportService pass a simpleService built from a dereferenced copy
of the caller's announcement (Connection.go lines 310 and 319), so the
callee mutates a fresh struct sharing only the slice pointers; in value
semantics the copy carries the same field values. -/
def simpleServiceCopy (a : ServiceAnnouncement) : ServiceAnnouncement := a

/-- ExportService (Connection.go lines 318-320). -/
def ExportService (env : ExportEnv) (st : ConnState) (topic : String)
    (ann : ServiceAnnouncement) : Except String (List String) × ConnState :=
  exportService env st topic (simpleServiceCopy ann)

/-- MustExportService (Connection.go lines 309-315): the same state effect
as ExportService; on error it aborts the process via Fatalf instead of
returning. -/
def MustExportService (env : ExportEnv) (st : ConnState) (topic : String)
    (ann : ServiceAnnouncement) : Except String (List String) × ConnState :=
  exportService env st topic (simpleServiceCopy ann)

/-- Modelled from the spec: the discovery responder (the discoverService
type exported on the $discover topic in Connect) is not among the sources
embedded here; per spec sections 4.5 and 6 a discovery query returns the full
ordered sequence of announcements this process has exported, serialized to
the wire at query time. -/
def discoveryQuery (st : ConnState) : List AnnValue :=
  st.services.map (derefAnn st.heap)

/-- One export call with the behaviour of its external collaborators. -/
structure ExportCall where
  env : ExportEnv
  topic : String
  ann : ServiceAnnouncement

/-- Whether an Except value is a success. -/
def exOk {α : Type} : Except String α → Bool
  | .ok _ => true
  | .error _ => false

/-- Runs a sequence of export calls from a state, returning the final state
and the number of calls that succeeded. -/
def runExports : List ExportCall → ConnState → ConnState × Nat
  | [], st => (st, 0)
  | c :: rest, st =>
      let r := exportService c.env st c.topic c.ann
      let t := runExports rest r.2
      (t.1, (if exOk r.1 then 1 else 0) + t.2)

/-- Whether every slice pointer of an announcement points inside a heap of
the given length. -/
def ptrOk (heapLen : Nat) (a : ServiceAnnouncement) : Bool :=
  (match a.supportedMethods with
   | some p => decide (p < heapLen)
   | none => true) &&
  (match a.supportedEvents with
   | some p => decide (p < heapLen)
   | none => true)

/-- Whether every call of a sequence hands exportService an announcement
whose slice pointers are live in the heap of the state the call runs in. -/
def callsValid : ConnState → List ExportCall → Bool
  | _, [] => true
  | st, c :: rest =>
      ptrOk st.heap.length c.ann && callsValid (exportService c.env st c.topic c.ann).2 rest

/-! ## Lemmas about the subscription handler -/

/-- A cancelled subscription delivers nothing: every further message is
dropped with an empty trace. -/
theorem runMessages_cancelled (templ : String)
    (adapter : String → List (String × String) → Bool) (msgs : List Msg) :
    runMessages templ adapter true msgs = (true, []) := by
  induction msgs with
  | nil => rfl
  | cons m ms ih => simp [runMessages, handleMessage, ih]

/-- When processing a message cancels the subscription, the resulting
cancelled flag is set. -/
theorem handleMessage_cancelEv_state (templ : String)
    (adapter : String → List (String × String) → Bool) (c : Bool) (m : Msg)
    (h : HEvent.cancelEv ∈ (handleMessage templ adapter c m).2) :
    (handleMessage templ adapter c m).1 = true := by
  cases c with
  | true => simp [handleMessage] at h
  | false =>
      cases hd : m.decoded with
      | none => simp [handleMessage, hd] at h
      | some params =>
          by_cases ha : adapter params ((MatchTopicPattern templ m.topic).getD [])
          · simp [handleMessage, hd, ha] at h
          · simp [handleMessage, hd, ha]

/-- C1: in the serial per-subscription delivery model, once the adapted
callback returns false on a message (the trace of that message carries the
cancellation), every message delivered to the subscription afterwards
yields an empty trace: the callback is never invoked again, so no later
message, queued or not, is ever delivered. -/
theorem no_delivery_after_callback_false (templ : String)
    (adapter : String → List (String × String) → Bool) (st1 : Bool) (m : Msg)
    (msgs2 : List Msg)
    (hc : HEvent.cancelEv ∈ (handleMessage templ adapter st1 m).2) :
    (runMessages templ adapter (handleMessage templ adapter st1 m).1 msgs2).2 = [] := by
  rw [handleMessage_cancelEv_state templ adapter st1 m hc, runMessages_cancelled]

/-- A run exercising no_delivery_after_callback_false: the callback returns
false on the first message, and a second already-arrived message produces
no delivery. -/
theorem no_delivery_after_callback_false_witness :
    (runMessages "a" (fun _ _ => false)
      (handleMessage "a" (fun _ _ => false) false ⟨"a", some "p"⟩).1
      [⟨"a", some "q"⟩]).2 = [] :=
  no_delivery_after_callback_false "a" (fun _ _ => false) false ⟨"a", some "p"⟩
    [⟨"a", some "q"⟩] (by decide)

/-- C2 as stated fails on the code: with template matching refused (a
segment-count mismatch), the handler still invokes the adapted callback,
passing an empty placeholder map (Connection.go lines 114-119 build an
empty map and fall through instead of returning). -/
theorem mismatch_still_delivered_cex :
    MatchTopicPattern "$device/:id" "$device/42/channel/motion" = none ∧
    (handleMessage "$device/:id" (fun _ _ => true) false
      ⟨"$device/42/channel/motion", some "payload"⟩).2 = [HEvent.invoked []] := by
  decide

/-- C2 amended: on a topic-template mismatch the message is not dropped;
the adapted callback is invoked with an empty placeholder map (and the
subscription is then cancelled exactly when that callback returns false). -/
theorem mismatch_invokes_with_empty_map (templ : String)
    (adapter : String → List (String × String) → Bool) (m : Msg) (params : String)
    (hm : MatchTopicPattern templ m.topic = none) (hd : m.decoded = some params) :
    (handleMessage templ adapter false m).2 =
      HEvent.invoked [] :: (if adapter params [] then [] else [HEvent.cancelEv]) := by
  by_cases ha : adapter params []
  · simp [handleMessage, hm, hd, ha]
  · simp [handleMessage, hm, hd, ha]

/-- A run exercising mismatch_invokes_with_empty_map at the segment-count
mismatch of the specification scenario. -/
theorem mismatch_invokes_with_empty_map_witness :
    (handleMessage "$device/:id" (fun _ _ => true) false
      ⟨"$device/42/channel/motion", some "x"⟩).2 =
      HEvent.invoked [] ::
        (if (fun (_ : String) (_ : List (String × String)) => true) "x" [] then []
         else [HEvent.cancelEv]) :=
  mismatch_invokes_with_empty_map "$device/:id"
    (fun _ _ => true) ⟨"$device/42/channel/motion", some "x"⟩ "x" (by decide) rfl

/-! ## Theorems about the event-emission bindings -/

/-- C5 as stated fails on the code: a publish failure inside the bound
event-emission handler is returned to the emitting service; the variadic
binding logs it first, the deprecated binding does not log at all. -/
theorem emit_failure_propagated_cex :
    (eventHandlerVariadic (fun _ _ => .error "publish failed") "state" "p").1 =
      .error "publish failed" ∧
    eventHandlerDeprecated (fun _ _ => .error "publish failed") "state" "p" =
      (.error "publish failed", []) :=
  ⟨rfl, rfl⟩

/-- C5 amended: both event-emission bindings return the SendEvent outcome
to the emitting service verbatim; the variadic binding logs a failure
before returning it, the deprecated binding returns it without logging. -/
theorem emit_failure_logged_and_returned (sendEvent : String → String → Except String Unit)
    (event payload : String) :
    (eventHandlerVariadic sendEvent event payload).1 = sendEvent event payload ∧
    ((eventHandlerVariadic sendEvent event payload).2 =
      (if exOk (sendEvent event payload) then [] else [EmitEvent.loggedSendFailure])) ∧
    eventHandlerDeprecated sendEvent event payload = (sendEvent event payload, []) := by
  cases h : sendEvent event payload with
  | ok u => cases u; simp [eventHandlerVariadic, eventHandlerDeprecated, exOk, h]
  | error e => simp [eventHandlerVariadic, eventHandlerDeprecated, exOk, h]

/-! ## Theorems about adapter.invoke -/

/-- C8: when the payload fails to decode into the declared target type,
adapter.invoke logs the failure and returns true without calling the
subscriber callback, and a subscription delivering such a message is not
cancelled, so later messages continue to be delivered. -/
theorem invoke_decode_failure_continues (a : AdapterModel) (params : String)
    (values : List (String × String))
    (h0 : a.argCount ≠ 0) (hd : a.decode params = none) :
    a.invoke params values = (true, [IEvent.decodeErrorLogged]) ∧
    (∀ (templ : String) (m : Msg), m.decoded = some params →
      (handleMessage templ (fun p v => (a.invoke p v).1) false m).1 = false) := by
  refine ⟨by simp [AdapterModel.invoke, h0, hd], ?_⟩
  intro templ m hm
  simp [handleMessage, hm, AdapterModel.invoke, h0, hd]

/-- A run exercising invoke_decode_failure_continues on a one-parameter
adapter whose decode step rejects the payload. -/
theorem invoke_decode_failure_continues_witness :
    (AdapterModel.mk 1 (fun _ => none) (fun _ _ => false)).invoke "bad" [] =
      (true, [IEvent.decodeErrorLogged]) ∧
    (∀ (templ : String) (m : Msg), m.decoded = some "bad" →
      (handleMessage templ
        (fun p v => ((AdapterModel.mk 1 (fun _ => none) (fun _ _ => false)).invoke p v).1)
        false m).1 = false) :=
  invoke_decode_failure_continues (AdapterModel.mk 1 (fun _ => none) (fun _ _ => false))
    "bad" [] (by decide) rfl

/-! ## Lemmas about the slice heap -/

/-- Reading below the old length is unchanged by extending the heap. -/
theorem derefList_append_left (h t : List (List String)) (p : Nat) (hp : p < h.length) :
    derefList (h ++ t) p = derefList h p :=
  List.getD_append h t [] p hp

/-- Reading the first freshly appended cell. -/
theorem derefList_append_self (h : List (List String)) (xs : List String)
    (t : List (List String)) : derefList (h ++ xs :: t) h.length = xs := by
  rw [derefList, List.getD_eq_getElem?_getD, List.getElem?_append_right (Nat.le_refl _)]
  simp

/-- An announcement whose pointers are live in a heap dereferences the same
way after the heap is extended. -/
theorem derefAnn_append (h t : List (List String)) (a : ServiceAnnouncement)
    (hp : ptrOk h.length a = true) : derefAnn (h ++ t) a = derefAnn h a := by
  unfold ptrOk at hp
  cases hm : a.supportedMethods with
  | none =>
      cases he : a.supportedEvents with
      | none => simp [derefAnn, hm, he]
      | some q =>
          rw [hm, he] at hp
          simp at hp
          simp [derefAnn, hm, he, derefList_append_left h t q hp]
  | some p =>
      cases he : a.supportedEvents with
      | none =>
          rw [hm, he] at hp
          simp at hp
          simp [derefAnn, hm, he, derefList_append_left h t p hp]
      | some q =>
          rw [hm, he] at hp
          simp at hp
          simp [derefAnn, hm, he, derefList_append_left h t p hp.1,
            derefList_append_left h t q hp.2]

/-- Pointer liveness is monotone in the heap length. -/
theorem ptrOk_mono (a : ServiceAnnouncement) (n m : Nat) (hnm : n ≤ m)
    (hp : ptrOk n a = true) : ptrOk m a = true := by
  unfold ptrOk at hp ⊢
  cases hm : a.supportedMethods <;> cases he : a.supportedEvents <;>
    simp [hm, he] at hp ⊢ <;> omega

/-! ## Theorems about exportService -/

/-- C3: a declared supportedMethods slice longer than the discovered method
set makes the export fail, and the failure is all-or-nothing: no announce
event is published and the services registry is unchanged. -/
theorem export_declared_exceeding_all_or_nothing (env : ExportEnv) (st : ConnState)
    (topic : String) (ann : ServiceAnnouncement) (p : Nat) (methods : List String)
    (hreg : env.registerResult = Except.ok methods)
    (hdecl : ann.supportedMethods = some p)
    (hlen : methods.length < (derefList st.heap p).length) :
    (∃ e, (exportService env st topic ann).1 = Except.error e) ∧
    (exportService env st topic ann).2.services = st.services ∧
    (exportService env st topic ann).2.published = st.published := by
  simp [exportService, hreg, hdecl, hlen]

/-- A run exercising export_declared_exceeding_all_or_nothing: one
discovered method, two declared. -/
theorem export_declared_exceeding_all_or_nothing_witness :
    (∃ e, (exportService ⟨fun s => s, Except.ok ["get"], true⟩
        ⟨[["get", "set"]], [], []⟩ "t" ⟨"s", "", some 0, none⟩).1 = Except.error e) ∧
    (exportService ⟨fun s => s, Except.ok ["get"], true⟩
        ⟨[["get", "set"]], [], []⟩ "t" ⟨"s", "", some 0, none⟩).2.services = [] ∧
    (exportService ⟨fun s => s, Except.ok ["get"], true⟩
        ⟨[["get", "set"]], [], []⟩ "t" ⟨"s", "", some 0, none⟩).2.published = [] :=
  export_declared_exceeding_all_or_nothing ⟨fun s => s, Except.ok ["get"], true⟩
    ⟨[["get", "set"]], [], []⟩ "t" ⟨"s", "", some 0, none⟩ 0 ["get"] rfl rfl (by decide)

/-- C4, evaluated at the scenario of the specification: with discovered
methods get, set and delete, the declared slice get, set is accepted, and
the declared slice get, set, rename is also accepted: the code compares
only the counts (Connection.go lines 348-351, the membership check being an
explicit TODO), so the second export succeeds where the claim requires it
to fail. -/
theorem declared_methods_checked_by_count_only :
    exOk (exportService ⟨fun s => s, Except.ok ["get", "set", "delete"], true⟩
      ⟨[["get", "set"]], [], []⟩ "t" ⟨"s", "", some 0, none⟩).1 = true ∧
    exOk (exportService ⟨fun s => s, Except.ok ["get", "set", "delete"], true⟩
      ⟨[["get", "set", "rename"]], [], []⟩ "t" ⟨"s", "", some 0, none⟩).1 = true := by
  decide

/-- C6: an export with no declared supportedMethods succeeds (given the
registrar and the announce publish succeed) and publishes an announcement
whose supportedMethods is exactly the discovered method list. -/
theorem export_adopts_discovered_methods (env : ExportEnv) (st : ConnState)
    (topic : String) (ann : ServiceAnnouncement) (methods : List String)
    (hreg : env.registerResult = Except.ok methods)
    (hnone : ann.supportedMethods = none)
    (hsend : env.sendOk = true) :
    exOk (exportService env st topic ann).1 = true ∧
    ∃ av, (exportService env st topic ann).2.published = st.published ++ [av] ∧
      av.supportedMethods = some methods := by
  cases hev : ann.supportedEvents with
  | none =>
      refine ⟨by simp [exportService, exportFinish, hreg, hnone, hev, hsend, alloc, exOk],
        derefAnn (st.heap ++ [methods, []])
          { schema := env.resolve ann.schema, topic := topic,
            supportedMethods := some st.heap.length,
            supportedEvents := some (st.heap.length + 1) },
        by simp [exportService, exportFinish, hreg, hnone, hev, hsend, alloc], ?_⟩
      have : st.heap ++ [methods, []] = st.heap ++ methods :: [[]] := rfl
      simp [derefAnn, this, derefList_append_self]
  | some q =>
      refine ⟨by simp [exportService, exportFinish, hreg, hnone, hev, hsend, alloc, exOk],
        derefAnn (st.heap ++ [methods])
          { schema := env.resolve ann.schema, topic := topic,
            supportedMethods := some st.heap.length,
            supportedEvents := some q },
        by simp [exportService, exportFinish, hreg, hnone, hev, hsend, alloc], ?_⟩
      have : st.heap ++ [methods] = st.heap ++ methods :: [] := rfl
      simp [derefAnn, this, derefList_append_self]

/-- A run exercising export_adopts_discovered_methods from the initial
connection state. -/
theorem export_adopts_discovered_methods_witness :
    exOk (exportService ⟨fun s => s, Except.ok ["get", "set"], true⟩ emptyConn
      "t" ⟨"s", "", none, none⟩).1 = true ∧
    ∃ av, (exportService ⟨fun s => s, Except.ok ["get", "set"], true⟩ emptyConn
      "t" ⟨"s", "", none, none⟩).2.published = emptyConn.published ++ [av] ∧
      av.supportedMethods = some ["get", "set"] :=
  export_adopts_discovered_methods ⟨fun s => s, Except.ok ["get", "set"], true⟩
    emptyConn "t" ⟨"s", "", none, none⟩ ["get", "set"] rfl rfl rfl

/-! ## Characterization of exportFinish and exportService -/

/-- Destructing pointer liveness. -/
theorem ptrOk_dest (n : Nat) (a : ServiceAnnouncement) (h : ptrOk n a = true) :
    (∀ p, a.supportedMethods = some p → p < n) ∧
    (∀ q, a.supportedEvents = some q → q < n) := by
  unfold ptrOk at h
  constructor
  · intro p hp
    rw [hp] at h
    cases he : a.supportedEvents <;> rw [he] at h <;> simp at h <;> first | exact h | exact h.1
  · intro q hq
    rw [hq] at h
    cases hm : a.supportedMethods <;> rw [hm] at h <;> simp at h <;> first | exact h | exact h.2

/-- Building pointer liveness. -/
theorem ptrOk_build (n : Nat) (a : ServiceAnnouncement)
    (hm : ∀ p, a.supportedMethods = some p → p < n)
    (he : ∀ q, a.supportedEvents = some q → q < n) : ptrOk n a = true := by
  unfold ptrOk
  cases hmm : a.supportedMethods with
  | none =>
      cases hee : a.supportedEvents with
      | none => simp
      | some q => simp [he q hee]
  | some p =>
      cases hee : a.supportedEvents with
      | none => simp [hm p hmm]
      | some q => simp [hm p hmm, he q hee]

/-- What exportFinish does when the announce publish fails: the error
surfaces and neither the published sequence nor the registry changes. -/
theorem exportFinish_sendFail (env : ExportEnv) (st : ConnState) (topic : String)
    (a : ServiceAnnouncement) (methods : List String) (hs : env.sendOk = false) :
    (∃ e, (exportFinish env st topic a methods).1 = Except.error e) ∧
    (exportFinish env st topic a methods).2.services = st.services ∧
    (exportFinish env st topic a methods).2.published = st.published := by
  cases hev : a.supportedEvents <;> simp [exportFinish, hev, hs, alloc]

/-- What exportFinish does when the announce publish succeeds: the heap
gains at most the freshly allocated empty events slice, and the final
announcement is appended both to the published sequence (as its wire
value at publish time) and to the registry. -/
theorem exportFinish_sendOk (env : ExportEnv) (st : ConnState) (topic : String)
    (a : ServiceAnnouncement) (methods : List String) (hs : env.sendOk = true) :
    ∃ hx a2,
      (exportFinish env st topic a methods).2.heap = st.heap ++ hx ∧
      (exportFinish env st topic a methods).1 = Except.ok methods ∧
      (exportFinish env st topic a methods).2.services = st.services ++ [a2] ∧
      (exportFinish env st topic a methods).2.published =
        st.published ++ [derefAnn (st.heap ++ hx) a2] ∧
      a2.supportedMethods = a.supportedMethods ∧
      ((hx = [] ∧ a2.supportedEvents = a.supportedEvents) ∨
       (hx = [[]] ∧ a2.supportedEvents = some st.heap.length)) := by
  cases hev : a.supportedEvents with
  | none =>
      refine ⟨[[]], { a with supportedEvents := some st.heap.length, topic := topic },
        ?_, ?_, ?_, ?_, rfl, Or.inr ⟨rfl, rfl⟩⟩ <;>
        simp [exportFinish, hev, hs, alloc]
  | some q =>
      refine ⟨[], { a with topic := topic },
        ?_, ?_, ?_, ?_, rfl, Or.inl ⟨rfl, by simp [hev]⟩⟩ <;>
        simp [exportFinish, hev, hs, alloc]

/-- The exportService reduction in the undeclared-methods branch. -/
theorem exportService_eq_none (env : ExportEnv) (st : ConnState) (topic : String)
    (ann : ServiceAnnouncement) (methods : List String)
    (hreg : env.registerResult = Except.ok methods)
    (hm : ann.supportedMethods = none) :
    exportService env st topic ann =
      exportFinish env { st with heap := st.heap ++ [methods] } topic
        { ann with
            schema := env.resolve ann.schema,
            supportedMethods := some st.heap.length } methods := by
  simp [exportService, hreg, hm, alloc]

/-- The exportService reduction in the declared-methods branch when the
count check passes. -/
theorem exportService_eq_some (env : ExportEnv) (st : ConnState) (topic : String)
    (ann : ServiceAnnouncement) (methods : List String) (p : Nat)
    (hreg : env.registerResult = Except.ok methods)
    (hm : ann.supportedMethods = some p)
    (hlen : ¬ (derefList st.heap p).length > methods.length) :
    exportService env st topic ann =
      exportFinish env st topic
        { ann with schema := env.resolve ann.schema } methods := by
  simp [exportService, hreg, hm, hlen]

/-- exportService only ever appends to the heap. -/
theorem exportService_heap_extends (env : ExportEnv) (st : ConnState) (topic : String)
    (ann : ServiceAnnouncement) :
    ∃ hx, (exportService env st topic ann).2.heap = st.heap ++ hx := by
  cases hreg : env.registerResult with
  | error e => exact ⟨[], by simp [exportService, hreg]⟩
  | ok methods =>
      cases hm : ann.supportedMethods with
      | none =>
          rw [exportService_eq_none env st topic ann methods hreg hm]
          cases hev : ann.supportedEvents with
          | none =>
              cases hs : env.sendOk <;>
                exact ⟨[methods, []], by simp [exportFinish, hev, hs, alloc]⟩
          | some q =>
              cases hs : env.sendOk <;>
                exact ⟨[methods], by simp [exportFinish, hev, hs, alloc]⟩
      | some p =>
          by_cases hlen : (derefList st.heap p).length > methods.length
          · exact ⟨[], by simp [exportService, hreg, hm, hlen]⟩
          · rw [exportService_eq_some env st topic ann methods p hreg hm hlen]
            cases hev : ann.supportedEvents with
            | none =>
                cases hs : env.sendOk <;>
                  exact ⟨[[]], by simp [exportFinish, hev, hs, alloc]⟩
            | some q =>
                cases hs : env.sendOk <;>
                  exact ⟨[], by simp [exportFinish, hev, hs, alloc]⟩

/-- A successful exportService call appends exactly one announcement to the
registry and publishes exactly its wire value, while extending the heap;
the appended announcement keeps live pointers when the input had them. -/
theorem exportService_success_spec (env : ExportEnv) (st : ConnState) (topic : String)
    (ann : ServiceAnnouncement)
    (hok : exOk (exportService env st topic ann).1 = true) :
    ∃ hx a2,
      (exportService env st topic ann).2.heap = st.heap ++ hx ∧
      (exportService env st topic ann).2.services = st.services ++ [a2] ∧
      (exportService env st topic ann).2.published =
        st.published ++ [derefAnn (st.heap ++ hx) a2] ∧
      (ptrOk st.heap.length ann = true → ptrOk (st.heap ++ hx).length a2 = true) := by
  cases hreg : env.registerResult with
  | error e => simp [exportService, hreg, exOk] at hok
  | ok methods =>
      cases hs : env.sendOk with
      | false =>
          exfalso
          cases hm : ann.supportedMethods with
          | none =>
              rw [exportService_eq_none env st topic ann methods hreg hm] at hok
              obtain ⟨e, he⟩ := (exportFinish_sendFail env _ topic _ methods hs).1
              rw [he] at hok
              simp [exOk] at hok
          | some p =>
              by_cases hlen : (derefList st.heap p).length > methods.length
              · simp [exportService, hreg, hm, hlen, exOk] at hok
              · rw [exportService_eq_some env st topic ann methods p hreg hm hlen] at hok
                obtain ⟨e, he⟩ := (exportFinish_sendFail env st topic _ methods hs).1
                rw [he] at hok
                simp [exOk] at hok
      | true =>
          cases hm : ann.supportedMethods with
          | none =>
              rw [exportService_eq_none env st topic ann methods hreg hm]
              obtain ⟨hx2, a2, hheap, _, hserv, hpub, ha2m, ha2e⟩ :=
                exportFinish_sendOk env { st with heap := st.heap ++ [methods] } topic
                  { ann with
                      schema := env.resolve ann.schema,
                      supportedMethods := some st.heap.length } methods hs
              refine ⟨[methods] ++ hx2, a2, ?_, ?_, ?_, ?_⟩
              · rw [hheap]; simp
              · exact hserv
              · rw [hpub]; simp
              · intro hv
                obtain ⟨_, hve⟩ := ptrOk_dest _ _ hv
                apply ptrOk_build
                · intro p hp
                  rw [ha2m] at hp
                  simp at hp
                  simp only [List.length_append, List.length_cons, List.length_nil]
                  omega
                · intro q hq
                  rcases ha2e with ⟨hxe, he⟩ | ⟨hxe, he⟩
                  · rw [he] at hq
                    simp at hq
                    have := hve q hq
                    simp only [List.length_append, List.length_cons, List.length_nil]
                    omega
                  · rw [he] at hq
                    simp at hq
                    subst hxe
                    simp only [List.length_append, List.length_cons, List.length_nil]
                    omega
          | some p =>
              by_cases hlen : (derefList st.heap p).length > methods.length
              · simp [exportService, hreg, hm, hlen, exOk] at hok
              · rw [exportService_eq_some env st topic ann methods p hreg hm hlen]
                obtain ⟨hx2, a2, hheap, _, hserv, hpub, ha2m, ha2e⟩ :=
                  exportFinish_sendOk env st topic
                    { ann with schema := env.resolve ann.schema } methods hs
                refine ⟨hx2, a2, hheap, hserv, hpub, ?_⟩
                intro hv
                obtain ⟨hvm, hve⟩ := ptrOk_dest _ _ hv
                apply ptrOk_build
                · intro p2 hp2
                  rw [ha2m] at hp2
                  simp at hp2
                  have := hvm p2 hp2
                  simp only [List.length_append, List.length_cons, List.length_nil]
                  omega
                · intro q hq
                  rcases ha2e with ⟨hxe, he⟩ | ⟨hxe, he⟩
                  · rw [he] at hq
                    simp at hq
                    have := hve q hq
                    simp only [List.length_append, List.length_cons, List.length_nil]
                    omega
                  · rw [he] at hq
                    simp at hq
                    subst hxe
                    simp only [List.length_append, List.length_cons, List.length_nil]
                    omega

/-- A failed exportService call leaves the registry and the published
sequence unchanged. -/
theorem exportService_failure_spec (env : ExportEnv) (st : ConnState) (topic : String)
    (ann : ServiceAnnouncement)
    (hfail : exOk (exportService env st topic ann).1 = false) :
    (exportService env st topic ann).2.services = st.services ∧
    (exportService env st topic ann).2.published = st.published := by
  cases hreg : env.registerResult with
  | error e => simp [exportService, hreg]
  | ok methods =>
      cases hm : ann.supportedMethods with
      | none =>
          rw [exportService_eq_none env st topic ann methods hreg hm] at hfail ⊢
          cases hs : env.sendOk with
          | true =>
              obtain ⟨hx2, a2, _, hres, _, _, _, _⟩ :=
                exportFinish_sendOk env { st with heap := st.heap ++ [methods] } topic
                  { ann with
                      schema := env.resolve ann.schema,
                      supportedMethods := some st.heap.length } methods hs
              rw [hres] at hfail
              simp [exOk] at hfail
          | false =>
              have h := exportFinish_sendFail env { st with heap := st.heap ++ [methods] }
                topic { ann with
                  schema := env.resolve ann.schema,
                  supportedMethods := some st.heap.length } methods hs
              exact ⟨h.2.1, h.2.2⟩
      | some p =>
          by_cases hlen : (derefList st.heap p).length > methods.length
          · simp [exportService, hreg, hm, hlen]
          · rw [exportService_eq_some env st topic ann methods p hreg hm hlen] at hfail ⊢
            cases hs : env.sendOk with
            | true =>
                obtain ⟨hx2, a2, _, hres, _, _, _, _⟩ :=
                  exportFinish_sendOk env st topic
                    { ann with schema := env.resolve ann.schema } methods hs
                rw [hres] at hfail
                simp [exOk] at hfail
            | false =>
                have h := exportFinish_sendFail env st topic
                  { ann with schema := env.resolve ann.schema } methods hs
                exact ⟨h.2.1, h.2.2⟩

/-! ## The discovery registry across sequences of exports -/

/-- The running invariant of the registry: every recorded announcement has
live pointers, and serializing the registry reproduces, in order, exactly
the wire values the announce events published. -/
def registryConsistent (st : ConnState) : Prop :=
  st.services.map (derefAnn st.heap) = st.published ∧
  ∀ a ∈ st.services, ptrOk st.heap.length a = true

/-- One exportService call preserves the registry invariant. -/
theorem exportService_preserves_consistent (env : ExportEnv) (st : ConnState)
    (topic : String) (ann : ServiceAnnouncement)
    (hv : ptrOk st.heap.length ann = true) (hc : registryConsistent st) :
    registryConsistent (exportService env st topic ann).2 := by
  cases hok : exOk (exportService env st topic ann).1 with
  | true =>
      obtain ⟨hx, a2, hheap, hserv, hpub, hptr⟩ :=
        exportService_success_spec env st topic ann hok
      constructor
      · rw [hserv, hheap, List.map_append, hpub]
        congr 1
        rw [← hc.1]
        apply List.map_congr_left
        intro a ha
        exact derefAnn_append st.heap hx a (hc.2 a ha)
      · intro a ha
        rw [hserv] at ha
        rw [hheap]
        rcases List.mem_append.mp ha with h | h
        · exact ptrOk_mono a _ _ (by simp) (hc.2 a h)
        · rw [List.mem_singleton.mp h]
          exact hptr hv
  | false =>
      obtain ⟨hserv, hpub⟩ := exportService_failure_spec env st topic ann hok
      obtain ⟨hx, hheap⟩ := exportService_heap_extends env st topic ann
      constructor
      · rw [hserv, hpub, hheap, ← hc.1]
        apply List.map_congr_left
        intro a ha
        exact derefAnn_append st.heap hx a (hc.2 a ha)
      · intro a ha
        rw [hserv] at ha
        rw [hheap]
        exact ptrOk_mono a _ _ (by simp) (hc.2 a ha)

/-- Across any sequence of exports the services list only grows at its end,
by exactly one announcement per successful call. -/
theorem runExports_services (calls : List ExportCall) :
    ∀ st : ConnState, ∃ tail,
      (runExports calls st).1.services = st.services ++ tail ∧
      tail.length = (runExports calls st).2 := by
  induction calls with
  | nil => exact fun st => ⟨[], by simp [runExports]⟩
  | cons c rest ih =>
      intro st
      obtain ⟨tail2, ht2, hl2⟩ := ih (exportService c.env st c.topic c.ann).2
      cases hok : exOk (exportService c.env st c.topic c.ann).1 with
      | true =>
          obtain ⟨hx, a2, _, hserv, _, _⟩ :=
            exportService_success_spec c.env st c.topic c.ann hok
          refine ⟨a2 :: tail2, ?_, ?_⟩
          · show (runExports rest (exportService c.env st c.topic c.ann).2).1.services = _
            rw [ht2, hserv]
            simp
          · show _ = (if exOk (exportService c.env st c.topic c.ann).1 then 1 else 0) +
              (runExports rest (exportService c.env st c.topic c.ann).2).2
            rw [hok, ← hl2]
            simp [Nat.add_comm]
      | false =>
          obtain ⟨hserv, _⟩ := exportService_failure_spec c.env st c.topic c.ann hok
          refine ⟨tail2, ?_, ?_⟩
          · show (runExports rest (exportService c.env st c.topic c.ann).2).1.services = _
            rw [ht2, hserv]
          · show _ = (if exOk (exportService c.env st c.topic c.ann).1 then 1 else 0) +
              (runExports rest (exportService c.env st c.topic c.ann).2).2
            rw [hok, ← hl2]
            simp

/-- Any sequence of pointer-valid exports preserves the registry
invariant. -/
theorem runExports_consistent (calls : List ExportCall) :
    ∀ st : ConnState, callsValid st calls = true → registryConsistent st →
      registryConsistent (runExports calls st).1 := by
  induction calls with
  | nil => exact fun st _ hc => hc
  | cons c rest ih =>
      intro st hv hc
      rw [callsValid, Bool.and_eq_true] at hv
      exact ih (exportService c.env st c.topic c.ann).2 hv.2
        (exportService_preserves_consistent c.env st c.topic c.ann hv.1 hc)

/-- C9: the discovery registry is append-only: any sequence of export calls
only ever appends to the services list, the list grows by exactly one
announcement per successful export (so after N successful exports the
discovery query returns exactly N announcements), and, starting from the
initial connection state, the discovery query returns, in order, exactly
the wire values the announce events of those exports published. -/
theorem discovery_registry_append_only (calls : List ExportCall)
    (hv : callsValid emptyConn calls = true) :
    (∀ st : ConnState, ∃ tail,
      (runExports calls st).1.services = st.services ++ tail ∧
      tail.length = (runExports calls st).2) ∧
    discoveryQuery (runExports calls emptyConn).1 =
      (runExports calls emptyConn).1.published ∧
    (runExports calls emptyConn).1.services.length =
      (runExports calls emptyConn).2 := by
  have hcons := runExports_consistent calls emptyConn hv
    ⟨rfl, by intro a ha; simp [emptyConn] at ha⟩
  refine ⟨runExports_services calls, hcons.1, ?_⟩
  obtain ⟨tail, ht, hl⟩ := runExports_services calls emptyConn
  rw [ht, ← hl]
  simp [emptyConn]

/-- A run exercising discovery_registry_append_only on two successful
exports and one failing export. -/
theorem discovery_registry_append_only_witness :
    (∀ st : ConnState, ∃ tail,
      (runExports [⟨⟨fun s => s, Except.ok ["get"], true⟩, "t1", ⟨"s1", "", none, none⟩⟩,
        ⟨⟨fun s => s, Except.error "down", true⟩, "t2", ⟨"s2", "", none, none⟩⟩,
        ⟨⟨fun s => s, Except.ok [], true⟩, "t3", ⟨"s3", "", none, none⟩⟩] st).1.services =
          st.services ++ tail ∧
      tail.length = (runExports [⟨⟨fun s => s, Except.ok ["get"], true⟩, "t1", ⟨"s1", "", none, none⟩⟩,
        ⟨⟨fun s => s, Except.error "down", true⟩, "t2", ⟨"s2", "", none, none⟩⟩,
        ⟨⟨fun s => s, Except.ok [], true⟩, "t3", ⟨"s3", "", none, none⟩⟩] st).2) ∧
    discoveryQuery (runExports [⟨⟨fun s => s, Except.ok ["get"], true⟩, "t1", ⟨"s1", "", none, none⟩⟩,
        ⟨⟨fun s => s, Except.error "down", true⟩, "t2", ⟨"s2", "", none, none⟩⟩,
        ⟨⟨fun s => s, Except.ok [], true⟩, "t3", ⟨"s3", "", none, none⟩⟩] emptyConn).1 =
      (runExports [⟨⟨fun s => s, Except.ok ["get"], true⟩, "t1", ⟨"s1", "", none, none⟩⟩,
        ⟨⟨fun s => s, Except.error "down", true⟩, "t2", ⟨"s2", "", none, none⟩⟩,
        ⟨⟨fun s => s, Except.ok [], true⟩, "t3", ⟨"s3", "", none, none⟩⟩] emptyConn).1.published ∧
    (runExports [⟨⟨fun s => s, Except.ok ["get"], true⟩, "t1", ⟨"s1", "", none, none⟩⟩,
        ⟨⟨fun s => s, Except.error "down", true⟩, "t2", ⟨"s2", "", none, none⟩⟩,
        ⟨⟨fun s => s, Except.ok [], true⟩, "t3", ⟨"s3", "", none, none⟩⟩] emptyConn).1.services.length =
      (runExports [⟨⟨fun s => s, Except.ok ["get"], true⟩, "t1", ⟨"s1", "", none, none⟩⟩,
        ⟨⟨fun s => s, Except.error "down", true⟩, "t2", ⟨"s2", "", none, none⟩⟩,
        ⟨⟨fun s => s, Except.ok [], true⟩, "t3", ⟨"s3", "", none, none⟩⟩] emptyConn).2 :=
  discovery_registry_append_only
    [⟨⟨fun s => s, Except.ok ["get"], true⟩, "t1", ⟨"s1", "", none, none⟩⟩,
     ⟨⟨fun s => s, Except.error "down", true⟩, "t2", ⟨"s2", "", none, none⟩⟩,
     ⟨⟨fun s => s, Except.ok [], true⟩, "t3", ⟨"s3", "", none, none⟩⟩] (by decide)

/-- C10: ExportService and MustExportService do not mutate the caller's
announcement. Both pass exportService a fresh struct copy of the
announcement (the simpleService built at Connection.go lines 310 and 319),
so the caller's fields are untouched by the topic assignment, schema
resolution and defaulting, and the heap is only ever appended to, so the
slices the caller's announcement points at are also unchanged: the caller's
announcement dereferences to the same wire value after the call. -/
theorem export_does_not_mutate_caller (env : ExportEnv) (st : ConnState)
    (topic : String) (ann : ServiceAnnouncement)
    (hv : ptrOk st.heap.length ann = true) :
    derefAnn (ExportService env st topic ann).2.heap ann = derefAnn st.heap ann ∧
    derefAnn (MustExportService env st topic ann).2.heap ann = derefAnn st.heap ann := by
  obtain ⟨hx, hheap⟩ := exportService_heap_extends env st topic (simpleServiceCopy ann)
  constructor
  · show derefAnn (exportService env st topic (simpleServiceCopy ann)).2.heap ann = _
    rw [hheap]
    exact derefAnn_append st.heap hx ann hv
  · show derefAnn (exportService env st topic (simpleServiceCopy ann)).2.heap ann = _
    rw [hheap]
    exact derefAnn_append st.heap hx ann hv

/-- A run exercising export_does_not_mutate_caller: the caller's
announcement, with a declared methods slice, reads back unchanged. -/
theorem export_does_not_mutate_caller_witness :
    derefAnn (ExportService ⟨fun s => s, Except.ok ["get", "set"], true⟩
      ⟨[["get"]], [], []⟩ "t" ⟨"s", "old", some 0, none⟩).2.heap ⟨"s", "old", some 0, none⟩ =
      derefAnn [["get"]] ⟨"s", "old", some 0, none⟩ ∧
    derefAnn (MustExportService ⟨fun s => s, Except.ok ["get", "set"], true⟩
      ⟨[["get"]], [], []⟩ "t" ⟨"s", "old", some 0, none⟩).2.heap ⟨"s", "old", some 0, none⟩ =
      derefAnn [["get"]] ⟨"s", "old", some 0, none⟩ :=
  export_does_not_mutate_caller ⟨fun s => s, Except.ok ["get", "set"], true⟩
    ⟨[["get"]], [], []⟩ "t" ⟨"s", "old", some 0, none⟩ (by decide)

/-! ## Callback-shape validation -/

/-- C7: getAdapter accepts a callback exactly when it is a function with at
most two parameters, a second parameter (when present) of the placeholder
map type, a first parameter (when present) of pointer kind, and exactly one
bool result; on rejection the subscribe registration returns the error
synchronously and no bus-level subscription is created. -/
theorem callback_shape_validation (t : GoType) :
    exOk (getAdapter t) = legalCallbackShape t ∧
    (subscribeRegistration t).busSubscribeCalled = legalCallbackShape t ∧
    (legalCallbackShape t = false → ∃ e, (subscribeRegistration t).result = Except.error e) := by
  have h1 : exOk (getAdapter t) = legalCallbackShape t := by
    cases t with
    | jsonRawMessage => rfl
    | boolT => rfl
    | mapStringString => rfl
    | other n => rfl
    | ptr e => rfl
    | func ins outs =>
        rcases ins with _ | ⟨a, _ | ⟨b, _ | ⟨c, tl⟩⟩⟩
        · rcases outs with _ | ⟨o, _ | ⟨o2, ol⟩⟩
          · rfl
          · cases o <;> rfl
          · cases o <;> rfl
        · rcases outs with _ | ⟨o, _ | ⟨o2, ol⟩⟩
          · cases a <;> rfl
          · cases a <;> cases o <;> rfl
          · cases a <;> cases o <;> rfl
        · cases a with
          | ptr e =>
              cases e <;> cases b <;> rcases outs with _ | ⟨o, _ | ⟨o2, ol⟩⟩ <;>
                first | rfl | (cases o <;> rfl)
          | jsonRawMessage =>
              cases b <;> rcases outs with _ | ⟨o, _ | ⟨o2, ol⟩⟩ <;>
                first | rfl | (cases o <;> rfl)
          | boolT =>
              cases b <;> rcases outs with _ | ⟨o, _ | ⟨o2, ol⟩⟩ <;>
                first | rfl | (cases o <;> rfl)
          | mapStringString =>
              cases b <;> rcases outs with _ | ⟨o, _ | ⟨o2, ol⟩⟩ <;>
                first | rfl | (cases o <;> rfl)
          | func fi fo =>
              cases b <;> rcases outs with _ | ⟨o, _ | ⟨o2, ol⟩⟩ <;>
                first | rfl | (cases o <;> rfl)
          | other nm =>
              cases b <;> rcases outs with _ | ⟨o, _ | ⟨o2, ol⟩⟩ <;>
                first | rfl | (cases o <;> rfl)
        · have hlen : ¬ ((a :: b :: c :: tl).length ≤ 2) := by
            simp only [List.length_cons]
            omega
          simp only [legalCallbackShape, decide_eq_false hlen, Bool.false_and]
          simp only [getAdapter, GoType.isDummyType, checkParams, exOk]
          rfl
  have hbus : (subscribeRegistration t).busSubscribeCalled = exOk (getAdapter t) := by
    unfold subscribeRegistration
    cases getAdapter t <;> rfl
  refine ⟨h1, hbus.trans h1, ?_⟩
  intro hf
  have hex : exOk (getAdapter t) = false := h1.trans hf
  cases hg : getAdapter t with
  | error e => exact ⟨e, by simp [subscribeRegistration, hg]⟩
  | ok v => rw [hg] at hex; simp [exOk] at hex

end GoNinja
